import Mathlib

/-!
Verification of the report-renderer module `nucypher/cli/painting/staking.py`.

The module is a presentation layer: each `paint_*` function reads fields of
already-computed domain views (stakers, stakes, wallets, agents) and writes
formatted lines to an emitter.  We embed it shallowly:

* every value read from a collaborator method call is a field of a view
  structure (the collaborators are abstract data sources for this module);
* external formatting helpers (`prettify_eth_amount`, `tabulate`,
  `datetime_at_period`, `nickname_from_seed`, token conversions) are
  parameters of the embedded functions, or structured output events;
* the emitter is modelled by the list of output events produced, in order;
* Python-specific semantics (truthiness, `str`, string repetition, string
  slicing and width formatting) are modelled by small explicit helpers below.

Machine integers do not occur: all the arithmetic in the module is Python
arbitrary-precision `int` arithmetic, embedded as `Int`.
-/

/-! ### Python semantics helpers -/

/-- Truthiness of a Python `int`: zero is falsy, everything else truthy. -/
def pyTruthyInt (i : Int) : Bool := i != 0

/-- Truthiness of a Python `str`-or-`None` value: `None` and the empty
string are falsy, every other string is truthy. -/
def pyTruthyStrOpt : Option String → Bool
  | none => false
  | some s => !s.isEmpty

/-- Model of a Python `filter(...)` object: it records the elements the
filter would yield. -/
structure PyFilterObject (α : Type) where
  elems : List α

/-- Truthiness of a Python `filter` object.  A `filter` object defines
neither a boolean conversion nor a length, so Python treats it as truthy
regardless of whether it would yield any element. -/
def PyFilterObject.truthy {α : Type} (_f : PyFilterObject α) : Bool := true

/-- Python string repetition `s * n`: empty for a non-positive count. -/
def pyStrMul (s : String) (n : Int) : String :=
  if n ≤ 0 then "" else String.join (List.replicate n.toNat s)

/-- Python `str.capitalize()`: first character upper-cased, the rest
lower-cased. -/
def pyCapitalize (s : String) : String :=
  match s.data with
  | [] => ""
  | c :: cs => String.mk (c.toUpper :: cs.map Char.toLower)

/-- Python format spec `f"{s:w}"` on a string: left-justify to width `w`
by padding with spaces (no change when the string is already wider). -/
def pyLJust (s : String) (w : Nat) : String :=
  s ++ String.mk (List.replicate (w - s.length) ' ')

/-- Decimal digit character for `n < 10`. -/
def pyDigitChar (n : Nat) : Char := Char.ofNat (48 + n)

/-- Decimal digits of a natural number, most significant first.  The first
argument is recursion fuel; `fuel = n + 1` always suffices. -/
def pyNatStrAux : Nat → Nat → List Char
  | 0, _ => []
  | fuel + 1, n =>
    if n < 10 then [pyDigitChar n]
    else pyNatStrAux fuel (n / 10) ++ [pyDigitChar (n % 10)]

/-- Decimal string of a natural number, as produced by Python `str`. -/
def pyNatStr (n : Nat) : String := String.mk (pyNatStrAux (n + 1) n)

/-- Model of Python `str` on an `int`: decimal digits, with a leading
minus sign for negative numbers. -/
def pyStr (i : Int) : String :=
  if i < 0 then "-" ++ pyNatStr i.natAbs else pyNatStr i.toNat

/-! ### Data model: read-only views consumed by the renderer

Each structure collects exactly the values the source reads from a domain
object or from a collaborator method call on it. -/

/-- View of one stake as consumed by `paint_stakes`: its sort key, its
active flag, and the values of its `describe()` mapping (an external,
already-formatted row of the stake table). -/
structure StakeView where
  address_index_ordering_key : Int
  is_active : Bool
  describe_values : List String
  deriving DecidableEq

/-- View of one staker as consumed by `paint_stakes`.  Fields named after
the attribute or collaborator call they stand for: `reward_amount` is
`staker.policy_agent.get_reward_amount(staker.checksum_address)`,
`last_active_period` is
`staker.staking_agent.get_last_active_period(staker.checksum_address)`,
and `registry_source_network` is `staker.registry.source.network`
(`none` when `staker.registry.source` is falsy). -/
structure StakerView where
  checksum_address : String
  worker_address : String
  stakes : List StakeView
  reward_amount : Int
  last_active_period : Int
  missing_confirmations : Int
  min_reward_rate : Int
  is_restaking : Bool
  restaking_lock_enabled : Bool
  is_winding_down : Bool
  registry_source_network : Option String
  deriving DecidableEq

/-- Output events written to the emitter.  `echo` carries the text plus
the `bold`, `color` and `nl` keyword arguments of `emitter.echo`
(defaults: not bold, no color, with newline); the table constructors
stand for `emitter.echo(tabulate.tabulate(...))` calls and carry the
structured data handed to the external `tabulate` collaborator. -/
inductive Out where
  | echo (text : String) (bold : Bool) (color : Option String) (nl : Bool)
  | stakerTable (data : List String)
  | stakeTable (rows : List (List String))
  | accountTable (rows : List (List String))
  deriving DecidableEq

/-! ### Embedding of `paint_stakes` (lines 29-89) -/

/-- Missing-confirmation label of `paint_stakes` (lines 59-62). -/
def missing_info (missing last_confirmed : Int) : String :=
  if missing == -1 then "Never Confirmed (New Stake)"
  else
    if pyTruthyInt missing then
      "Missing " ++ pyStr missing ++ " confirmation" ++
        (if missing > 1 then "s" else "")
    else "Confirmed #" ++ pyStr last_confirmed

/-- Color of the staker header line (line 75):
`color="red" if missing else "green"`. -/
def header_color (missing : Int) : String :=
  if pyTruthyInt missing then "red" else "green"

/-- Sort key comparison used by `sorted(staker.stakes, key=lambda s:
s.address_index_ordering_key)` (line 48). -/
def stakeLe (a b : StakeView) : Bool :=
  a.address_index_ordering_key ≤ b.address_index_ordering_key

/-- The sorted stake list of line 48. -/
def sortedStakes (stakes : List StakeView) : List StakeView :=
  stakes.mergeSort stakeLe

/-- The stakes whose rows reach the stake table (lines 79-84): iterate
the sorted list and skip a stake exactly when it is inactive and
`paint_inactive` is not set. -/
def tableStakes (paint_inactive : Bool) (stakes : List StakeView) : List StakeView :=
  (sortedStakes stakes).filter (fun s => s.is_active || paint_inactive)

/-- The `staker_data` column of the staker status table (lines 64-68);
`pe` is the external `prettify_eth_amount` collaborator. -/
def staker_data (pe : Int → String) (staker : StakerView) : List String :=
  [missing_info staker.missing_confirmations staker.last_active_period,
   (if staker.is_restaking then "Yes" else "No") ++ " (" ++
     (if staker.restaking_lock_enabled then "Locked" else "Unlocked") ++ ")",
   if staker.is_winding_down then "Yes" else "No",
   pe staker.reward_amount,
   pe staker.min_reward_rate]

/-- The network snippet line emitted when `staker.registry.source` is
truthy (lines 70-74). -/
def networkSnippet (network : String) : Out :=
  let line_width : Int := 54
  let network_snippet := "\nNetwork " ++ pyCapitalize network ++ " "
  Out.echo (network_snippet ++
    pyStrMul "═" (line_width - (network_snippet.length : Int) + 1)) true none true

/-- Output of one loop iteration of `paint_stakes` for a staker that was
neither skipped for having no stakes nor filtered out by address
(lines 48-86). -/
def paintOneStaker (pe : Int → String) (paint_inactive : Bool)
    (staker : StakerView) : List Out :=
  let stakes := sortedStakes staker.stakes
  let active_stakes : PyFilterObject StakeView := ⟨stakes.filter (fun s => s.is_active)⟩
  (if !active_stakes.truthy then
     [Out.echo "There are no active stakes\n" false none true]
   else []) ++
  (match staker.registry_source_network with
   | some network => [networkSnippet network]
   | none => []) ++
  [Out.echo ("Staker " ++ staker.checksum_address ++ " ════") true
     (some (header_color staker.missing_confirmations)) true,
   Out.echo ("Worker " ++ staker.worker_address ++ " ════") false none true,
   Out.stakerTable (staker_data pe staker),
   Out.stakeTable ((tableStakes paint_inactive staker.stakes).map
     (fun s => s.describe_values))]

/-- The staker loop of `paint_stakes` (lines 37-86).  Returns the output
events, the final `total_stakers` counter, and — for the frame property —
the staker views after the loop body ran on them (the body only reads
them, so each is threaded through unchanged). -/
def paintStakesLoop (pe : Int → String) (paint_inactive : Bool)
    (staker_address : Option String) :
    List StakerView → List Out × Nat × List StakerView
  | [] => ([], 0, [])
  | staker :: rest =>
    let r := paintStakesLoop pe paint_inactive staker_address rest
    if staker.stakes.isEmpty then
      (r.1, r.2.1, staker :: r.2.2)
    else
      if pyTruthyStrOpt staker_address &&
          staker.checksum_address != staker_address.getD "" then
        (r.1, r.2.1, staker :: r.2.2)
      else
        (paintOneStaker pe paint_inactive staker ++ r.1, r.2.1 + 1, staker :: r.2.2)

/-- The red notice of lines 88-89. -/
def noStakesNotice : Out := Out.echo "No Stakes found" false (some "red") true

/-- State-passing embedding of `paint_stakes` (lines 29-89): the output
events and the staker views after the call. -/
def paint_stakes_full (pe : Int → String) (stakers : List StakerView)
    (paint_inactive : Bool) (staker_address : Option String) :
    List Out × List StakerView :=
  let intro :=
    if stakers.isEmpty then
      [Out.echo "No staking accounts found." false none true]
    else []
  let r := paintStakesLoop pe paint_inactive staker_address stakers
  (intro ++ r.1 ++ (if r.2.1 == 0 then [noStakesNotice] else []), r.2.2)

/-- Output of `paint_stakes`. -/
def paint_stakes (pe : Int → String) (stakers : List StakerView)
    (paint_inactive : Bool) (staker_address : Option String) : List Out :=
  (paint_stakes_full pe stakers paint_inactive staker_address).1

/-! ### Embedding of `prettify_stake` (lines 92-107) -/

/-- View of one stake as consumed by `prettify_stake` and
`paint_staged_stake_division`.  The datetime fields carry the result of
the external chain `start_datetime.local_datetime().strftime(...)` and
`unlock_datetime.local_datetime().strftime(...)`; `value_str` is
`str(stake.value)` for the external token type. -/
structure StakeDetailView where
  staker_address : String
  worker_address : String
  index : Int
  value_str : String
  duration : Int
  start_datetime_pretty : String
  unlock_datetime_pretty : String
  first_locked_period : Int
  final_locked_period : Int
  deriving DecidableEq

/-- The `pretty_periods` field of `prettify_stake` (line 97): the literal
dot is appended exactly when `len(str(duration)) == 2`. -/
def pretty_periods (duration : Int) : String :=
  pyStr duration ++ " periods " ++
    (if (pyStr duration).length == 2 then "." else "")

/-- Embedding of `prettify_stake` (lines 92-107). -/
def prettify_stake (stake : StakeDetailView) (index : Option Int) : String :=
  "| " ++ (match index with | some i => pyStr i | none => "-") ++ " " ++
  "| " ++ stake.staker_address.take 6 ++ " " ++
  "| " ++ stake.worker_address.take 6 ++ " " ++
  "| " ++ pyStr stake.index ++ " " ++
  "| " ++ stake.value_str ++ " " ++
  "| " ++ pretty_periods stake.duration ++ " " ++
  "| " ++ stake.start_datetime_pretty ++ " - " ++ stake.unlock_datetime_pretty ++ " "

/-! ### Embedding of `paint_staged_stake` and `paint_staged_stake_division`
(lines 110-170) -/

/-- Result of the external `datetime_at_period` collaborator, reduced to
the one value the renderer reads from it:
`local_datetime().strftime("%b %d %H:%M %Z")`. -/
structure DateTimeView where
  pretty : String
  deriving DecidableEq

/-- The stakeholder fields read by `paint_staged_stake`:
`stakeholder.economics.seconds_per_period` and
`stakeholder.wallet.blockchain.client.chain_id` / `.chain_name`. -/
structure StakeholderView where
  seconds_per_period : Int
  chain_id : Int
  chain_name : String
  deriving DecidableEq

/-- The external NU token value: `display` is `str(value)` and `nunits`
is `int(value)`. -/
structure NUView where
  display : String
  nunits : Int
  deriving DecidableEq

/-- The keyword arguments of a `paint_staged_stake` call. -/
structure StagedStakeArgs where
  staking_address : String
  stake_value : NUView
  lock_periods : Int
  start_period : Int
  unlock_period : Int
  division_message : Option String
  deriving DecidableEq

/-- Embedding of `paint_staged_stake` (lines 134-170); `dap` is the
external `datetime_at_period` collaborator (period, seconds-per-period,
start-of-period flag). -/
def paint_staged_stake (dap : Int → Int → Bool → DateTimeView)
    (sh : StakeholderView) (a : StagedStakeArgs) : List Out :=
  let start_datetime := dap a.start_period sh.seconds_per_period true
  let unlock_datetime := dap a.unlock_period sh.seconds_per_period true
  (if pyTruthyStrOpt a.division_message then
     [Out.echo ("\n" ++ pyStrMul "═" 30 ++ " ORIGINAL STAKE " ++ pyStrMul "═" 28)
        true none true,
      Out.echo (a.division_message.getD "") false none true]
   else []) ++
  [Out.echo ("\n" ++ pyStrMul "═" 30 ++ " STAGED STAKE " ++ pyStrMul "═" 30)
     true none true,
   Out.echo ("\nStaking address: " ++ a.staking_address ++
     "\n~ Chain      -> ID # " ++ pyStr sh.chain_id ++ " | " ++ sh.chain_name ++
     "\n~ Value      -> " ++ a.stake_value.display ++ " (" ++
       pyStr a.stake_value.nunits ++ " NuNits)" ++
     "\n~ Duration   -> " ++ pyStr a.lock_periods ++ " Days (" ++
       pyStr a.lock_periods ++ " Periods)" ++
     "\n~ Enactment  -> " ++ start_datetime.pretty ++ " (period #" ++
       pyStr a.start_period ++ ")" ++
     "\n~ Expiration -> " ++ unlock_datetime.pretty ++ " (period #" ++
       pyStr a.unlock_period ++ ")\n    ") false none true,
   Out.echo (pyStrMul "═" 73) true none true]

/-- The division message built by `paint_staged_stake_division`
(lines 119-122). -/
def division_message_text (original_stake : StakeDetailView) : String :=
  "\nStaking address: " ++ original_stake.staker_address ++
  "\n~ Original Stake: " ++ prettify_stake original_stake none ++ "\n"

/-- The arguments `paint_staged_stake_division` passes to
`paint_staged_stake` (lines 115-131): `new_end_period` is
`original_stake.final_locked_period + extension` and
`new_duration_periods` is
`new_end_period - original_stake.first_locked_period + 1`. -/
def stagedDivisionCall (original_stake : StakeDetailView) (target_value : NUView)
    (extension : Int) : StagedStakeArgs :=
  let new_end_period := original_stake.final_locked_period + extension
  let new_duration_periods := new_end_period - original_stake.first_locked_period + 1
  { staking_address := original_stake.staker_address
    stake_value := target_value
    lock_periods := new_duration_periods
    start_period := original_stake.first_locked_period
    unlock_period := new_end_period + 1
    division_message := some (division_message_text original_stake) }

/-- Embedding of `paint_staged_stake_division` (lines 110-131). -/
def paint_staged_stake_division (dap : Int → Int → Bool → DateTimeView)
    (sh : StakeholderView) (original_stake : StakeDetailView)
    (target_value : NUView) (extension : Int) : List Out :=
  paint_staged_stake dap sh (stagedDivisionCall original_stake target_value extension)

/-! ### Embedding of `paint_stakers` (lines 173-228) -/

/-- The staking-agent queries read by `paint_stakers`, per staker
address; `current_period` is `staking_agent.get_current_period()`. -/
structure StakingAgentView where
  current_period : Int
  owned_tokens : String → Int
  last_active_period : String → Int
  worker_from_staker : String → String
  is_restaking : String → Bool
  is_restaking_locked : String → Bool
  restake_unlock_period : String → Int
  is_winding_down : String → Bool
  locked_tokens : String → Int

/-- The policy-agent queries read by `paint_stakers`. -/
structure PolicyAgentView where
  reward_amount : String → Int
  min_reward_rate : String → Int

/-- The activity-status line of `paint_stakers` (lines 207-216): a
four-way `if`/`elif`/`elif`/`else` chain on `missing_confirmations`
and `current_period`. -/
def activity_echo (missing_confirmations current_period last_confirmed_period : Int) :
    Out :=
  if missing_confirmations == -1 then
    Out.echo ("Next period confirmed (#" ++ pyStr last_confirmed_period ++ ")")
      false (some "green") true
  else if missing_confirmations == 0 then
    Out.echo ("Current period confirmed (#" ++ pyStr last_confirmed_period ++
      "). Pending confirmation of next period.") false (some "yellow") true
  else if missing_confirmations == current_period then
    Out.echo "Never confirmed activity" false (some "red") true
  else
    Out.echo ("Missing " ++ pyStr missing_confirmations ++
      " confirmations (last time for period #" ++ pyStr last_confirmed_period ++ ")")
      false (some "red") true

/-- Index of the branch the activity-status chain of `paint_stakers`
selects (0: next period confirmed, 1: current period confirmed,
2: never confirmed, 3: missing N confirmations), with the same guards
in the same order as lines 207-216. -/
def activityCase (missing_confirmations current_period : Int) : Nat :=
  if missing_confirmations == -1 then 0
  else if missing_confirmations == 0 then 1
  else if missing_confirmations == current_period then 2
  else 3

/-- Branch condition of case `i` of the activity-status chain: the guard
of branch `i` together with the negations of the guards before it. -/
def caseCond (i : Nat) (missing current : Int) : Prop :=
  match i with
  | 0 => missing = -1
  | 1 => missing ≠ -1 ∧ missing = 0
  | 2 => missing ≠ -1 ∧ missing ≠ 0 ∧ missing = current
  | 3 => missing ≠ -1 ∧ missing ≠ 0 ∧ missing ≠ current
  | _ + 4 => False

instance (i : Nat) (missing current : Int) : Decidable (caseCond i missing current) := by
  unfold caseCond
  split <;> infer_instance

/-- Output of one loop iteration of `paint_stakers` for one staker
address (lines 180-228).  `nick` is the external nickname-derivation
collaborator (nickname plus the two colored symbol pairs read from it),
`nu_disp` formats `round(NU.from_nunits(x), 2)`, `pe` is
`prettify_eth_amount`, and `null_address` is the external
`NULL_ADDRESS` constant. -/
def paintOneStakerEntry (nick : String → String × (String × String) × (String × String))
    (nu_disp : Int → String) (pe : Int → String) (null_address : String)
    (sa : StakingAgentView) (pa : PolicyAgentView) (staker : String) : List Out :=
  let nickname := (nick staker).1
  let pairs := (nick staker).2
  let symbols := pairs.1.2 ++ "  " ++ pairs.2.2
  let tab := pyStrMul " " (staker.length : Int)
  let last_confirmed_period := sa.last_active_period staker
  let worker := sa.worker_from_staker staker
  let missing_confirmations := sa.current_period - last_confirmed_period
  let owned_in_nu := nu_disp (sa.owned_tokens staker)
  let locked_tokens := nu_disp (sa.locked_tokens staker)
  [Out.echo (staker ++ "  " ++ pyLJust "Nickname:" 10 ++ " " ++ nickname ++ " " ++ symbols)
     false none true,
   Out.echo (tab ++ "  " ++ pyLJust "Owned:" 10 ++ " " ++ owned_in_nu ++
     "  (Staked: " ++ locked_tokens ++ ")") false none true] ++
  (if sa.is_restaking staker then
     if sa.is_restaking_locked staker then
       [Out.echo (tab ++ "  " ++ pyLJust "Re-staking:" 10 ++ " Yes  (Locked until period: " ++
          pyStr (sa.restake_unlock_period staker) ++ ")") false none true]
     else
       [Out.echo (tab ++ "  " ++ pyLJust "Re-staking:" 10 ++ " Yes  (Unlocked)")
          false none true]
   else
     [Out.echo (tab ++ "  " ++ pyLJust "Re-staking:" 10 ++ " No") false none true]) ++
  [Out.echo (tab ++ "  " ++ pyLJust "Winding down:" 10 ++ " " ++
     (if sa.is_winding_down staker then "Yes" else "No")) false none true,
   Out.echo (tab ++ "  " ++ pyLJust "Activity:" 10 ++ " ") false none false,
   activity_echo missing_confirmations sa.current_period last_confirmed_period,
   Out.echo (tab ++ "  " ++ pyLJust "Worker:" 10 ++ " ") false none false] ++
  (if worker == null_address then
     [Out.echo "Worker not set" false (some "red") true]
   else
     [Out.echo worker false none true]) ++
  [Out.echo (tab ++ "  Unclaimed fees: " ++ pe (pa.reward_amount staker))
     false none true,
   Out.echo (tab ++ "  Min reward rate: " ++ pe (pa.min_reward_rate staker))
     false none true]

/-- The staker loop of `paint_stakers`, threading the address list
through unchanged (the body only reads it). -/
def paintStakersLoop (nick : String → String × (String × String) × (String × String))
    (nu_disp : Int → String) (pe : Int → String) (null_address : String)
    (sa : StakingAgentView) (pa : PolicyAgentView) :
    List String → List Out × List String
  | [] => ([], [])
  | staker :: rest =>
    let r := paintStakersLoop nick nu_disp pe null_address sa pa rest
    (paintOneStakerEntry nick nu_disp pe null_address sa pa staker ++ r.1,
     staker :: r.2)

/-- State-passing embedding of `paint_stakers` (lines 173-228): output
events plus the views after the call. -/
def paint_stakers_full (nick : String → String × (String × String) × (String × String))
    (nu_disp : Int → String) (pe : Int → String) (null_address : String)
    (sa : StakingAgentView) (pa : PolicyAgentView) (stakers : List String) :
    List Out × StakingAgentView × PolicyAgentView × List String :=
  let r := paintStakersLoop nick nu_disp pe null_address sa pa stakers
  ([Out.echo ("\nCurrent period: " ++ pyStr sa.current_period) false none true,
    Out.echo "\n| Stakers |\n" false none true,
    Out.echo (pyLJust "Checksum address" 42 ++ "  Staker information") false none true,
    Out.echo (pyStrMul "=" (42 + 2 + 53)) false none true] ++ r.1,
   sa, pa, r.2)

/-- Output of `paint_stakers`. -/
def paint_stakers (nick : String → String × (String × String) × (String × String))
    (nu_disp : Int → String) (pe : Int → String) (null_address : String)
    (sa : StakingAgentView) (pa : PolicyAgentView) (stakers : List String) : List Out :=
  (paint_stakers_full nick nu_disp pe null_address sa pa stakers).1

/-! ### Embedding of `paint_staking_confirmation` (lines 231-240) -/

/-- The staker field read by `paint_staking_confirmation`:
`staker.staking_agent.contract_address`. -/
structure ConfStakerView where
  staking_agent_contract_address : String
  deriving DecidableEq

/-- The new-stake field read by `paint_staking_confirmation`: its
receipt, an abstract record passed to the external receipt formatter. -/
structure NewStakeView (ρ : Type) where
  receipt : ρ

/-- Embedding of `paint_staking_confirmation` (lines 231-240); `prs` is
the external `paint_receipt_summary` collaborator (receipt and
transaction-type label), `escrow_name` the external
`STAKING_ESCROW_CONTRACT_NAME` constant. -/
def paint_staking_confirmation {ρ : Type} (prs : ρ → String → List Out)
    (escrow_name : String) (staker : ConfStakerView) (new_stake : NewStakeView ρ) :
    List Out :=
  [Out.echo "\nStake initialization transaction was successful."
     false (some "green") true,
   Out.echo "\nTransaction details:" false none true] ++
  prs new_stake.receipt "deposit stake" ++
  [Out.echo ("\n" ++ escrow_name ++ " address: " ++
     staker.staking_agent_contract_address) false (some "blue") true,
   Out.echo ("\nView your stakes by running \x27nucypher stake list\x27\nor set your Ursula worker node address by running \x27nucypher stake set-worker\x27.\n\nSee https://docs.nucypher.com/en/latest/guides/staking_guide.html")
     false (some "green") true]

/-! ### Embedding of `paint_staking_accounts` (lines 243-256) -/

/-- The wallet values read by `paint_staking_accounts`: the account
list, and the balance queries (`ρ` is the abstract registry type). -/
structure WalletView (ρ : Type) where
  accounts : List String
  eth_balance : String → Int
  token_balance : String → ρ → Int

/-- The account loop of `paint_staking_accounts` (lines 247-254),
building one row per account in order.  `from_wei` formats
`str(Web3.fromWei(x, "ether"))`, `nu_disp` formats
`str(NU.from_nunits(x))`, and `stakes_of` is the stake collection of
`Staker(is_me=True, checksum_address=account, registry=registry)` after
`refresh()` (read from chain; only its truthiness is used). -/
def accountRows {ρ : Type} (from_wei : Int → String) (nu_disp : Int → String)
    (stakes_of : String → ρ → List StakeView) (wallet : WalletView ρ) (registry : ρ) :
    List String → List (List String)
  | [] => []
  | account :: rest =>
    let eth := from_wei (wallet.eth_balance account) ++ " ETH"
    let nu := nu_disp (wallet.token_balance account registry)
    let is_staking := if (stakes_of account registry).isEmpty then "No" else "Yes"
    [is_staking, account, eth, nu] ::
      accountRows from_wei nu_disp stakes_of wallet registry rest

/-- State-passing embedding of `paint_staking_accounts` (lines 243-256):
output events plus the views after the call. -/
def paint_staking_accounts_full {ρ : Type} (from_wei : Int → String)
    (nu_disp : Int → String) (stakes_of : String → ρ → List StakeView)
    (wallet : WalletView ρ) (registry : ρ) : List Out × WalletView ρ × ρ :=
  ([Out.accountTable
      (accountRows from_wei nu_disp stakes_of wallet registry wallet.accounts)],
   wallet, registry)

/-- Output of `paint_staking_accounts`. -/
def paint_staking_accounts {ρ : Type} (from_wei : Int → String)
    (nu_disp : Int → String) (stakes_of : String → ρ → List StakeView)
    (wallet : WalletView ρ) (registry : ρ) : List Out :=
  (paint_staking_accounts_full from_wei nu_disp stakes_of wallet registry).1

/-- State-passing embedding of `prettify_stake`: the string plus the
view after the call. -/
def prettify_stake_full (stake : StakeDetailView) (index : Option Int) :
    String × StakeDetailView :=
  (prettify_stake stake index, stake)

/-- State-passing embedding of `paint_staged_stake`. -/
def paint_staged_stake_full (dap : Int → Int → Bool → DateTimeView)
    (sh : StakeholderView) (a : StagedStakeArgs) :
    List Out × StakeholderView × StagedStakeArgs :=
  (paint_staged_stake dap sh a, sh, a)

/-- State-passing embedding of `paint_staged_stake_division`. -/
def paint_staged_stake_division_full (dap : Int → Int → Bool → DateTimeView)
    (sh : StakeholderView) (original_stake : StakeDetailView)
    (target_value : NUView) (extension : Int) :
    List Out × StakeholderView × StakeDetailView × NUView :=
  (paint_staged_stake_division dap sh original_stake target_value extension,
   sh, original_stake, target_value)

/-- State-passing embedding of `paint_staking_confirmation`. -/
def paint_staking_confirmation_full {ρ : Type} (prs : ρ → String → List Out)
    (escrow_name : String) (staker : ConfStakerView) (new_stake : NewStakeView ρ) :
    List Out × ConfStakerView × NewStakeView ρ :=
  (paint_staking_confirmation prs escrow_name staker new_stake, staker, new_stake)

/-- The guarded echo of lines 49-51 of `paint_stakes`: the message the
dead `if not active_stakes` branch would emit. -/
def noActiveStakesEcho : Out :=
  Out.echo "There are no active stakes\n" false none true

/-- Concrete staker view with the never-confirmed sentinel
`missing_confirmations = -1` and one active stake; a test input for the
header color. -/
def cexStaker : StakerView :=
  { checksum_address := "0xStaker"
    worker_address := "0xWorker"
    stakes := [{ address_index_ordering_key := 0, is_active := true,
                 describe_values := ["0", "1 NU", "3 periods", "5", "8"] }]
    reward_amount := 0
    last_active_period := 5
    missing_confirmations := -1
    min_reward_rate := 0
    is_restaking := false
    restaking_lock_enabled := false
    is_winding_down := false
    registry_source_network := none }

/-- Concrete active stake; a test input. -/
def wStakeA : StakeView :=
  { address_index_ordering_key := 1, is_active := true, describe_values := ["a"] }

/-- Concrete staker view with an empty stake list; a test input for the
skip branch of the staker loop. -/
def wEmptyStaker : StakerView :=
  { checksum_address := "0xEmpty"
    worker_address := "0xWorker"
    stakes := []
    reward_amount := 0
    last_active_period := 0
    missing_confirmations := 0
    min_reward_rate := 0
    is_restaking := false
    restaking_lock_enabled := false
    is_winding_down := false
    registry_source_network := none }

/-! ### Theorems -/

/-! ### Length facts about the decimal-string model -/

theorem pyNatStrAux_length_one {fuel n : Nat} (hf : 0 < fuel) (hn : n < 10) :
    (pyNatStrAux fuel n).length = 1 := by
  cases fuel with
  | zero => exact absurd hf (by omega)
  | succ f => simp [pyNatStrAux, hn]

theorem pyNatStrAux_length_pos {fuel n : Nat} (hf : 0 < fuel) :
    0 < (pyNatStrAux fuel n).length := by
  cases fuel with
  | zero => exact absurd hf (by omega)
  | succ f =>
    by_cases hn : n < 10
    · simp [pyNatStrAux, hn]
    · simp [pyNatStrAux, hn]

theorem pyNatStrAux_length_ge_two {fuel n : Nat} (h10 : 10 ≤ n)
    (hfuel : n < 10 ^ fuel) : 2 ≤ (pyNatStrAux fuel n).length := by
  cases fuel with
  | zero => omega
  | succ f =>
    have hf : 0 < f := by
      by_contra h0
      have : f = 0 := by omega
      subst this
      simp at hfuel
      omega
    have : ¬ n < 10 := by omega
    simp only [pyNatStrAux, this, if_false, List.length_append, List.length_cons,
      List.length_nil]
    have := pyNatStrAux_length_pos (n := n / 10) hf
    omega

theorem pyNatStrAux_length_two {fuel n : Nat} (hfuel : n < 10 ^ fuel) :
    (pyNatStrAux fuel n).length = 2 ↔ 10 ≤ n ∧ n < 100 := by
  cases fuel with
  | zero =>
    have : n = 0 := by simpa using hfuel
    subst this
    simp [pyNatStrAux]
  | succ f =>
    by_cases hn : n < 10
    · simp only [pyNatStrAux, hn, if_true, List.length_cons, List.length_nil]
      omega
    · have hf : 0 < f := by
        by_contra h0
        have : f = 0 := by omega
        subst this
        simp at hfuel
        omega
      simp only [pyNatStrAux, hn, if_false, List.length_append, List.length_cons,
        List.length_nil]
      constructor
      · intro h
        have hlen1 : (pyNatStrAux f (n / 10)).length = 1 := by omega
        by_cases h100 : n < 100
        · exact ⟨by omega, h100⟩
        · have hdiv10 : 10 ≤ n / 10 := by omega
          have hdivlt : n / 10 < 10 ^ f := by
            rw [Nat.div_lt_iff_lt_mul (by omega : 0 < 10)]
            have hp : (10 : Nat) ^ (f + 1) = 10 ^ f * 10 := Nat.pow_succ ..
            omega
          have := pyNatStrAux_length_ge_two hdiv10 hdivlt
          omega
      · rintro ⟨-, h100⟩
        have : n / 10 < 10 := by omega
        have := pyNatStrAux_length_one hf this
        omega

theorem pyNatStr_length_two {n : Nat} :
    (pyNatStr n).length = 2 ↔ 10 ≤ n ∧ n < 100 := by
  have hlt : n < 10 ^ (n + 1) := by
    calc n < 10 ^ n := Nat.lt_pow_self (by omega) n
    _ ≤ 10 ^ (n + 1) := Nat.pow_le_pow_right (by omega) (by omega)
  have : (pyNatStr n).length = (pyNatStrAux (n + 1) n).length := rfl
  rw [this]
  exact pyNatStrAux_length_two hlt

theorem pyNatStr_length_one {n : Nat} :
    (pyNatStr n).length = 1 ↔ n < 10 := by
  constructor
  · intro h
    by_contra h10
    have hlt : n < 10 ^ (n + 1) := by
      calc n < 10 ^ n := Nat.lt_pow_self (by omega) n
      _ ≤ 10 ^ (n + 1) := Nat.pow_le_pow_right (by omega) (by omega)
    have : 2 ≤ (pyNatStr n).length :=
      pyNatStrAux_length_ge_two (by omega) hlt
    omega
  · intro h
    exact pyNatStrAux_length_one (by omega) h

/-- Characterisation of the integers whose Python decimal representation
has exactly two characters: 10 through 99, and the negative single
digits -9 through -1 (one digit plus the minus sign). -/
theorem pyStr_length_two (d : Int) :
    (pyStr d).length = 2 ↔ (10 ≤ d ∧ d ≤ 99) ∨ (-9 ≤ d ∧ d ≤ -1) := by
  by_cases hneg : d < 0
  · have habs : 1 ≤ d.natAbs := by omega
    simp only [pyStr, hneg, if_true, String.length_append]
    have hone : ("-" : String).length = 1 := rfl
    rw [hone]
    constructor
    · intro h
      have : (pyNatStr d.natAbs).length = 1 := by omega
      have := pyNatStr_length_one.mp this
      right
      omega
    · intro h
      rcases h with h | h
      · omega
      · have : d.natAbs < 10 := by omega
        have := pyNatStr_length_one.mpr this
        omega
  · simp only [pyStr, hneg, if_false]
    rw [pyNatStr_length_two]
    omega

/-- The staker loop of `paint_stakes` threads the staker views through
unchanged: its body only reads them. -/
theorem paintStakesLoop_state (pe : Int → String) (paint_inactive : Bool)
    (staker_address : Option String) :
    ∀ stakers, (paintStakesLoop pe paint_inactive staker_address stakers).2.2 = stakers
  | [] => rfl
  | staker :: rest => by
    have ih := paintStakesLoop_state pe paint_inactive staker_address rest
    simp only [paintStakesLoop]
    split
    · simpa using ih
    · split
      · simpa using ih
      · simpa using ih

/-- The staker loop of `paint_stakers` threads the address list through
unchanged. -/
theorem paintStakersLoop_state
    (nick : String → String × (String × String) × (String × String))
    (nu_disp : Int → String) (pe : Int → String) (null_address : String)
    (sa : StakingAgentView) (pa : PolicyAgentView) :
    ∀ stakers, (paintStakersLoop nick nu_disp pe null_address sa pa stakers).2 = stakers
  | [] => rfl
  | staker :: rest => by
    have ih := paintStakersLoop_state nick nu_disp pe null_address sa pa rest
    simp only [paintStakersLoop]
    simpa using ih

/-- C8: no render operation mutates any input view.  Each render
function is embedded in state-passing style, with the views threaded
through the translation of its body; since the source only reads fields
and never assigns any, every view comes back equal to its input
value. -/
theorem render_no_input_mutation :
    (∀ (pe : Int → String) (stakers : List StakerView) (paint_inactive : Bool)
       (staker_address : Option String),
       (paint_stakes_full pe stakers paint_inactive staker_address).2 = stakers)
  ∧ (∀ (stake : StakeDetailView) (index : Option Int),
       (prettify_stake_full stake index).2 = stake)
  ∧ (∀ (dap : Int → Int → Bool → DateTimeView) (sh : StakeholderView)
       (a : StagedStakeArgs), (paint_staged_stake_full dap sh a).2 = (sh, a))
  ∧ (∀ (dap : Int → Int → Bool → DateTimeView) (sh : StakeholderView)
       (original_stake : StakeDetailView) (target_value : NUView) (extension : Int),
       (paint_staged_stake_division_full dap sh original_stake target_value extension).2
         = (sh, original_stake, target_value))
  ∧ (∀ (nick : String → String × (String × String) × (String × String))
       (nu_disp pe : Int → String) (null_address : String)
       (sa : StakingAgentView) (pa : PolicyAgentView) (stakers : List String),
       (paint_stakers_full nick nu_disp pe null_address sa pa stakers).2
         = (sa, pa, stakers))
  ∧ (∀ (ρ : Type) (prs : ρ → String → List Out) (escrow_name : String)
       (staker : ConfStakerView) (new_stake : NewStakeView ρ),
       (paint_staking_confirmation_full prs escrow_name staker new_stake).2
         = (staker, new_stake))
  ∧ (∀ (ρ : Type) (from_wei nu_disp : Int → String)
       (stakes_of : String → ρ → List StakeView) (wallet : WalletView ρ)
       (registry : ρ),
       (paint_staking_accounts_full from_wei nu_disp stakes_of wallet registry).2
         = (wallet, registry)) := by
  refine ⟨?_, fun _ _ => rfl, fun _ _ _ => rfl, fun _ _ _ _ _ => rfl, ?_,
    fun _ _ _ _ _ => rfl, fun _ _ _ _ _ _ => rfl⟩
  · intro pe stakers paint_inactive staker_address
    simp only [paint_stakes_full]
    exact paintStakesLoop_state pe paint_inactive staker_address stakers
  · intro nick nu_disp pe null_address sa pa stakers
    simp only [paint_stakers_full]
    rw [paintStakersLoop_state]

/-- C5: `paint_staged_stake_division` computes the new end period as
`original.final_locked_period + extension` and the new duration as
`new_end_period - original.first_locked_period + 1` in exact integer
arithmetic, and invokes `paint_staged_stake` with `lock_periods` the new
duration, `start_period` the original first locked period, and
`unlock_period` the new end period plus one. -/
theorem staged_division_spec (dap : Int → Int → Bool → DateTimeView)
    (sh : StakeholderView) (original_stake : StakeDetailView)
    (target_value : NUView) (extension : Int) :
    (stagedDivisionCall original_stake target_value extension).lock_periods =
      original_stake.final_locked_period + extension -
        original_stake.first_locked_period + 1
  ∧ (stagedDivisionCall original_stake target_value extension).start_period =
      original_stake.first_locked_period
  ∧ (stagedDivisionCall original_stake target_value extension).unlock_period =
      original_stake.final_locked_period + extension + 1
  ∧ paint_staged_stake_division dap sh original_stake target_value extension =
      paint_staged_stake dap sh (stagedDivisionCall original_stake target_value extension) :=
  ⟨rfl, rfl, rfl, rfl⟩

/-- C1: the four cases of the activity-status chain of `paint_stakers`
are mutually exclusive and exhaustive: for every integer pair
`(missing, currentPeriod)` exactly one branch condition holds, and the
selected branch index is exactly the one whose condition holds. -/
theorem activity_cases_exclusive_exhaustive (m c : Int) :
    (∃! i : Nat, caseCond i m c)
  ∧ (∀ i : Nat, caseCond i m c ↔ activityCase m c = i) := by
  have h : ∀ i : Nat, caseCond i m c ↔ activityCase m c = i := by
    intro i
    match i with
    | 0 =>
      simp only [caseCond, activityCase, beq_iff_eq]
      split_ifs <;> simp_all
    | 1 =>
      simp only [caseCond, activityCase, beq_iff_eq]
      split_ifs <;> simp_all
    | 2 =>
      simp only [caseCond, activityCase, beq_iff_eq]
      split_ifs <;> simp_all
    | 3 =>
      simp only [caseCond, activityCase, beq_iff_eq]
      split_ifs <;> simp_all
    | n + 4 =>
      simp only [caseCond, activityCase, beq_iff_eq]
      split_ifs <;> simp_all
  exact ⟨⟨activityCase m c, (h _).mpr rfl, fun j hj => ((h j).mp hj).symm⟩, h⟩

/-- Witness for C1 at a concrete input: `missing = currentPeriod = 5`
selects the never-confirmed branch. -/
theorem activity_cases_exclusive_exhaustive_witness : activityCase 5 5 = 2 :=
  ((activity_cases_exclusive_exhaustive 5 5).2 2).mp (by decide)

/-- C2: the missing-confirmation label of `paint_stakes` is exactly
"Never Confirmed (New Stake)" at the sentinel -1, "Confirmed #last" at
0, and "Missing N confirmation(s)" for N > 0 with the plural "s"
appended exactly when N > 1. -/
theorem missing_info_label_spec (missing last_confirmed : Int) :
    (missing = -1 →
      missing_info missing last_confirmed = "Never Confirmed (New Stake)")
  ∧ (missing = 0 →
      missing_info missing last_confirmed = "Confirmed #" ++ pyStr last_confirmed)
  ∧ (0 < missing →
      missing_info missing last_confirmed =
        "Missing " ++ pyStr missing ++ " confirmation" ++
          (if 1 < missing then "s" else ""))
  ∧ (missing = 1 →
      missing_info missing last_confirmed = "Missing " ++ pyStr 1 ++ " confirmation")
  ∧ (1 < missing →
      missing_info missing last_confirmed =
        "Missing " ++ pyStr missing ++ " confirmations") := by
  refine ⟨fun h => ?_, fun h => ?_, fun h => ?_, fun h => ?_, fun h => ?_⟩
  · subst h; rfl
  · subst h; rfl
  · have h1 : missing ≠ -1 := by omega
    have h2 : pyTruthyInt missing = true := by
      simp [pyTruthyInt]; omega
    simp [missing_info, h1, h2]
  · subst h
    simp [missing_info, pyTruthyInt]
  · have h1 : missing ≠ -1 := by omega
    have h2 : pyTruthyInt missing = true := by
      simp [pyTruthyInt]; omega
    have h3 : (" confirmation" ++ "s" : String) = " confirmations" := by decide
    simp only [missing_info, beq_iff_eq, h1, if_false, h2, if_true, h, ite_true]
    rw [String.append_assoc, h3]

/-- Witness for C2 at concrete inputs: the sentinel, the confirmed case,
the singular case and a plural case. -/
theorem missing_info_label_spec_witness :
    missing_info (-1) 5 = "Never Confirmed (New Stake)"
  ∧ missing_info 0 100 = "Confirmed #" ++ pyStr 100
  ∧ missing_info 1 7 = "Missing " ++ pyStr 1 ++ " confirmation"
  ∧ missing_info 3 7 = "Missing " ++ pyStr 3 ++ " confirmations" :=
  ⟨(missing_info_label_spec (-1) 5).1 rfl,
   (missing_info_label_spec 0 100).2.1 rfl,
   (missing_info_label_spec 1 7).2.2.2.1 rfl,
   (missing_info_label_spec 3 7).2.2.2.2 (by norm_num)⟩

/-- C3 (amended): the staker header line of `paint_stakes` is colored by
the truthiness of the missing-confirmation count: green exactly when the
count is 0, red for every nonzero count — including the never-confirmed
sentinel -1, which is truthy and therefore rendered red. -/
theorem header_color_spec (pe : Int → String) (paint_inactive : Bool)
    (staker : StakerView) :
    header_color staker.missing_confirmations =
      (if staker.missing_confirmations = 0 then "green" else "red")
  ∧ Out.echo ("Staker " ++ staker.checksum_address ++ " ════") true
      (some (header_color staker.missing_confirmations)) true ∈
        paintOneStaker pe paint_inactive staker := by
  constructor
  · by_cases h : staker.missing_confirmations = 0 <;>
      simp [header_color, pyTruthyInt, h]
  · simp only [paintOneStaker, PyFilterObject.truthy, Bool.not_true, if_false,
      List.nil_append, List.mem_append, List.mem_cons]
    cases staker.registry_source_network <;> simp

/-- Counterexample to C3 as stated: for a staker with
`missing_confirmations = -1` (never confirmed), `paint_stakes` emits the
header line red, not green. -/
theorem header_green_counterexample :
    cexStaker.missing_confirmations = -1
  ∧ Out.echo ("Staker " ++ cexStaker.checksum_address ++ " ════") true
      (some "red") true ∈ paint_stakes (fun _ => "0 wei") [cexStaker] false none
  ∧ Out.echo ("Staker " ++ cexStaker.checksum_address ++ " ════") true
      (some "green") true ∉ paint_stakes (fun _ => "0 wei") [cexStaker] false none := by
  refine ⟨rfl, ?_, ?_⟩ <;>
    simp [paint_stakes, paint_stakes_full, paintStakesLoop, paintOneStaker,
      pyTruthyStrOpt, PyFilterObject.truthy, cexStaker, header_color, pyTruthyInt,
      sortedStakes, tableStakes, staker_data, missing_info, noStakesNotice,
      List.mergeSort]

/-- C10: the duration field of `prettify_stake` carries a trailing dot
exactly when the decimal representation of the duration has two
characters — durations 10 through 99 and the negative single digits —
so the field width is not uniform across durations. -/
theorem pretty_periods_dot_spec (duration : Int) :
    (pretty_periods duration = pyStr duration ++ " periods " ++ "." ↔
      (10 ≤ duration ∧ duration ≤ 99) ∨ (-9 ≤ duration ∧ duration ≤ -1))
  ∧ (¬ ((10 ≤ duration ∧ duration ≤ 99) ∨ (-9 ≤ duration ∧ duration ≤ -1)) →
      pretty_periods duration = pyStr duration ++ " periods " ++ "")
  ∧ (pretty_periods 9).length ≠ (pretty_periods 10).length := by
  have hiff := pyStr_length_two duration
  refine ⟨⟨fun h => ?_, fun h => ?_⟩, fun h => ?_, by decide⟩
  · by_contra hc
    have hlen : ¬ (pyStr duration).length = 2 := fun h2 => hc (hiff.mp h2)
    have heq : pretty_periods duration = pyStr duration ++ " periods " ++ "" := by
      simp [pretty_periods, hlen]
    rw [heq] at h
    have := congrArg String.length h
    simp [String.length_append] at this
    exact absurd this (by decide)
  · have hlen : (pyStr duration).length = 2 := hiff.mpr h
    simp [pretty_periods, hlen]
  · have hlen : ¬ (pyStr duration).length = 2 := fun h2 => h (hiff.mp h2)
    simp [pretty_periods, hlen]

/-- Witness for C10 at concrete inputs: duration 10 gets the dot,
duration 5 does not. -/
theorem pretty_periods_dot_spec_witness :
    pretty_periods 10 = pyStr 10 ++ " periods " ++ "."
  ∧ pretty_periods 5 = pyStr 5 ++ " periods " ++ "" :=
  ⟨(pretty_periods_dot_spec 10).1.mpr (Or.inl (by norm_num)),
   (pretty_periods_dot_spec 5).2.1 (by norm_num)⟩

/-- C6: the stake rows of the table of a staker are emitted in non-decreasing
order of the stake field `address_index_ordering_key`, whatever the input
order of `staker.stakes`; the emitted stake table is built from exactly
that sorted-and-filtered list. -/
theorem stake_rows_sorted (pe : Int → String) (paint_inactive : Bool)
    (staker : StakerView) (stakes : List StakeView) :
    List.Pairwise (fun a b : StakeView =>
        a.address_index_ordering_key ≤ b.address_index_ordering_key)
      (tableStakes paint_inactive stakes)
  ∧ Out.stakeTable ((tableStakes paint_inactive staker.stakes).map
      (fun s => s.describe_values)) ∈ paintOneStaker pe paint_inactive staker := by
  constructor
  · have htrans : ∀ a b c : StakeView, stakeLe a b → stakeLe b c → stakeLe a c := by
      intro a b c hab hbc
      simp only [stakeLe, decide_eq_true_eq] at *
      omega
    have htotal : ∀ a b : StakeView, stakeLe a b || stakeLe b a := by
      intro a b
      simp only [stakeLe, Bool.or_eq_true, decide_eq_true_eq]
      omega
    have hsorted := List.sorted_mergeSort htrans htotal stakes
    have hsub : List.Pairwise (fun a b : StakeView => stakeLe a b)
        (tableStakes paint_inactive stakes) :=
      List.Pairwise.sublist (List.filter_sublist _) hsorted
    exact hsub.imp (fun hab => by
      simpa [stakeLe, decide_eq_true_eq] using hab)
  · simp only [paintOneStaker, PyFilterObject.truthy, Bool.not_true, if_false,
      List.nil_append, List.mem_append, List.mem_cons]
    cases staker.registry_source_network <;> simp

/-- C7: with `paint_inactive = false` every inactive stake is excluded
from the emitted stake table; with `paint_inactive = true` every stake
appears — the table list is a permutation of the full stake list, so it
keeps every stake with its multiplicity. -/
theorem paint_inactive_filter_spec (stakes : List StakeView) :
    (∀ s ∈ tableStakes false stakes, s.is_active = true)
  ∧ (∀ s ∈ stakes, s ∈ tableStakes true stakes)
  ∧ (∀ s : StakeView, (tableStakes true stakes).count s = stakes.count s) := by
  have hperm : List.Perm (List.mergeSort stakes stakeLe) stakes :=
    List.mergeSort_perm stakes stakeLe
  have htrue : tableStakes true stakes = sortedStakes stakes := by
    simp [tableStakes]
  refine ⟨?_, ?_, ?_⟩
  · intro s hs
    have := List.of_mem_filter hs
    simpa using this
  · intro s hs
    rw [htrue]
    exact hperm.mem_iff.mpr hs
  · intro s
    rw [htrue]
    exact hperm.count_eq s

/-- Witness for C7 at a concrete input: a one-element active stake list
passes the filter and is kept by the table. -/
theorem paint_inactive_filter_spec_witness :
    wStakeA.is_active = true ∧ wStakeA ∈ tableStakes true [wStakeA] :=
  ⟨(paint_inactive_filter_spec [wStakeA]).1 wStakeA
     (by simp [tableStakes, sortedStakes, List.mergeSort, wStakeA]),
   (paint_inactive_filter_spec [wStakeA]).2.1 wStakeA (by simp)⟩

/-- The per-staker output of `paint_stakes` never contains the
"No Stakes found" notice: every element differs from it in a non-text
field (boldness, color, or event kind). -/
theorem noStakesNotice_not_in_paintOneStaker (pe : Int → String)
    (paint_inactive : Bool) (staker : StakerView) :
    noStakesNotice ∉ paintOneStaker pe paint_inactive staker := by
  simp only [paintOneStaker, PyFilterObject.truthy, Bool.not_true, if_false,
    List.nil_append, List.mem_append, List.mem_cons, List.not_mem_nil,
    noStakesNotice, networkSnippet]
  cases staker.registry_source_network <;> simp [networkSnippet]

/-- The staker loop of `paint_stakes` never emits the "No Stakes found"
notice. -/
theorem noStakesNotice_count_loop (pe : Int → String) (paint_inactive : Bool)
    (staker_address : Option String) :
    ∀ stakers,
      ((paintStakesLoop pe paint_inactive staker_address stakers).1).count
        noStakesNotice = 0
  | [] => rfl
  | staker :: rest => by
    have ih := noStakesNotice_count_loop pe paint_inactive staker_address rest
    simp only [paintStakesLoop]
    split
    · simpa using ih
    · split
      · simpa using ih
      · simp only [List.count_append, ih, Nat.add_zero]
        exact List.count_eq_zero.mpr
          (noStakesNotice_not_in_paintOneStaker pe paint_inactive staker)

/-- C4: a staker with an empty stake list contributes no output and is
not counted toward the rendered-stakers total, and the red
"No Stakes found" notice appears in the output exactly once when that
total is zero and not at all when at least one staker was rendered. -/
theorem no_stakes_notice_spec (pe : Int → String) (paint_inactive : Bool)
    (staker_address : Option String) :
    (∀ (staker : StakerView) (rest : List StakerView), staker.stakes = [] →
      (paintStakesLoop pe paint_inactive staker_address (staker :: rest)).1 =
        (paintStakesLoop pe paint_inactive staker_address rest).1
      ∧ (paintStakesLoop pe paint_inactive staker_address (staker :: rest)).2.1 =
        (paintStakesLoop pe paint_inactive staker_address rest).2.1)
  ∧ (∀ stakers : List StakerView,
      ((paint_stakes pe stakers paint_inactive staker_address).count noStakesNotice) =
        if (paintStakesLoop pe paint_inactive staker_address stakers).2.1 = 0
        then 1 else 0) := by
  constructor
  · intro staker rest h
    constructor <;> simp [paintStakesLoop, h]
  · intro stakers
    simp only [paint_stakes, paint_stakes_full, List.count_append]
    rw [noStakesNotice_count_loop]
    have hintro :
        ((if stakers.isEmpty then
            [Out.echo "No staking accounts found." false none true]
          else []).count noStakesNotice) = 0 := by
      split <;> decide
    rw [hintro]
    by_cases h : (paintStakesLoop pe paint_inactive staker_address stakers).2.1 = 0
    · simp [h]
    · simp [h]

/-- Witness for C4 at a concrete input: one staker with an empty stake
list is skipped, and the notice is emitted exactly once. -/
theorem no_stakes_notice_spec_witness :
    (paintStakesLoop (fun _ => "") false none [wEmptyStaker]).1 =
      (paintStakesLoop (fun _ => "") false none []).1
  ∧ (paint_stakes (fun _ => "") [wEmptyStaker] false none).count noStakesNotice = 1 := by
  refine ⟨((no_stakes_notice_spec (fun _ => "") false none).1 wEmptyStaker [] rfl).1, ?_⟩
  have h := (no_stakes_notice_spec (fun _ => "") false none).2 [wEmptyStaker]
  rw [h]
  simp [paintStakesLoop, wEmptyStaker]

/-- The worker line text of `paint_stakes` never equals the dead-branch
message: their first characters differ. -/
theorem worker_text_ne (w : String) :
    ("Worker " ++ w ++ " ════") ≠ "There are no active stakes\n" := by
  intro h
  have hL : ("Worker " ++ w ++ " ════").data.head? = some 'W' := rfl
  rw [h] at hL
  exact absurd hL (by decide)

/-- The per-staker output of `paint_stakes` never contains the
"There are no active stakes" message. -/
theorem noActive_not_in_paintOneStaker (pe : Int → String)
    (paint_inactive : Bool) (staker : StakerView) :
    noActiveStakesEcho ∉ paintOneStaker pe paint_inactive staker := by
  have hw := worker_text_ne staker.worker_address
  simp only [paintOneStaker, PyFilterObject.truthy, Bool.not_true, if_false,
    List.nil_append, List.mem_append, List.mem_cons, List.not_mem_nil,
    noActiveStakesEcho, networkSnippet]
  cases staker.registry_source_network <;> simp [networkSnippet, Ne.symm hw]

/-- The staker loop of `paint_stakes` never emits the dead-branch
message. -/
theorem noActive_not_in_loop (pe : Int → String) (paint_inactive : Bool)
    (staker_address : Option String) :
    ∀ stakers,
      noActiveStakesEcho ∉ (paintStakesLoop pe paint_inactive staker_address stakers).1
  | [] => by simp [paintStakesLoop]
  | staker :: rest => by
    have ih := noActive_not_in_loop pe paint_inactive staker_address rest
    simp only [paintStakesLoop]
    split
    · simpa using ih
    · split
      · simpa using ih
      · simp only [List.mem_append]
        rintro (h | h)
        · exact noActive_not_in_paintOneStaker pe paint_inactive staker h
        · exact ih h

/-- C9: the branch of `paint_stakes` guarded by `if not active_stakes`
is unreachable.  The guard tests a `filter` object, which is truthy
whatever its contents, so the "There are no active stakes" message is
never emitted — for any input, including a staker all of whose stakes
are inactive. -/
theorem no_active_stakes_unreachable (pe : Int → String)
    (stakers : List StakerView) (paint_inactive : Bool)
    (staker_address : Option String) :
    (∀ elems : List StakeView, (PyFilterObject.mk elems).truthy = true)
  ∧ noActiveStakesEcho ∉ paint_stakes pe stakers paint_inactive staker_address := by
  refine ⟨fun _ => rfl, ?_⟩
  simp only [paint_stakes, paint_stakes_full, List.mem_append]
  rintro ((h | h) | h)
  · revert h
    split <;> simp [noActiveStakesEcho]
  · exact noActive_not_in_loop pe paint_inactive staker_address stakers h
  · revert h
    split <;> simp [noActiveStakesEcho, noStakesNotice]
